import Mathlib

/-!  A shallow embedding of the log4go logging package (dispatcher, format
engine, rotating file sink, socket sink, console sink) together with proofs
about its documented behaviour.  Go strings are modelled as Lean `String`
(sequences of characters), Go `int`/`int64` as `Int`, Go `nil`-able handles
as `Option`, and runtime panics as `none` results.  Functions that in Go
touch the filesystem, the clock or a socket take the outcome of those
effects as explicit parameters. -/

namespace Log4go

/-- Logging level strings (log4go.go `levelStrings`). -/
def levelStrings : List String :=
  ["FNST", "FINE", "DEBG", "TRAC", "INFO", "WARN", "EROR", "CRIT"]

/-- LogRecord (log4go.go): one emitted event.  `Created` is the creation
timestamp in nanoseconds since the epoch, as in the int64-timestamp
revisions of the package. -/
structure LogRecord where
  Level : Int
  Created : Int
  Source : String
  Message : String
deriving DecidableEq, Repr

/-- Go `levelStrings[rec.Level]`: unchecked array indexing.  `none` models
the index-out-of-range runtime panic. -/
def levelString (lvl : Int) : Option String :=
  if 0 ≤ lvl then levelStrings.get? lvl.toNat else none

/-- Broken-down local time: the fields of Go `*time.Time` that the package
reads.  `TimeConversionFunction` (Go `time.SecondsToLocalTime`) is modelled
as an explicit function argument `tcf : Int → Tm` wherever it is used. -/
structure Tm where
  Year : Int
  Month : Int
  Day : Int
  Hour : Int
  Minute : Int
  Second : Int
  Zone : String
deriving DecidableEq, Repr

/-- Zero-padded decimal numeral of width `w` (Go `fmt %0wd`, n ≥ 0). -/
def natPad (w : Nat) (n : Nat) : String :=
  let s := toString n
  String.mk (List.replicate (w - s.length) '0') ++ s

/-- Go `fmt %0wd` on an `Int`; the sign counts toward the width, as in Go. -/
def intPad (w : Nat) (n : Int) : String :=
  if n < 0 then "-" ++ natPad (w - 1) n.natAbs else natPad w n.toNat

/-- Width-2 zero padding (`%02d`). -/
def pad2 (n : Int) : String := intPad 2 n

/-- Width-4 zero padding (`%04d`). -/
def pad4 (n : Int) : String := intPad 4 n

/-- The "15:04:05" clock part shared by several layouts. -/
def clockOf (tm : Tm) : String :=
  pad2 tm.Hour ++ ":" ++ pad2 tm.Minute ++ ":" ++ pad2 tm.Second

/-- Long time "15:04:05 MST" (escape `%T`). -/
def longTimeOf (tm : Tm) : String := clockOf tm ++ " " ++ tm.Zone

/-- Short time "15:04" (escape `%t`). -/
def shortTimeOf (tm : Tm) : String := pad2 tm.Hour ++ ":" ++ pad2 tm.Minute

/-- Long date "2006/01/02" (escape `%D`). -/
def longDateOf (tm : Tm) : String :=
  pad4 tm.Year ++ "/" ++ pad2 tm.Month ++ "/" ++ pad2 tm.Day

/-- Short date "01/02/06" (escape `%d`); Go `tm.Year%100` is the truncated
remainder. -/
def shortDateOf (tm : Tm) : String :=
  pad2 tm.Month ++ "/" ++ pad2 tm.Day ++ "/" ++ pad2 (Int.tmod tm.Year 100)

/-- Seconds of a nanosecond timestamp: Go `rec.Created / 1e9` (`int64`
division truncates toward zero). -/
def createdSecs (created : Int) : Int := Int.tdiv created 1000000000

/-- Split a character list at every occurrence of `sep`, keeping empty
pieces: the semantics of Go `strings.Split` / `bytes.Split` with a
one-character separator, which is how the format engines cut their template
at percent signs. -/
def splitOnChar (sep : Char) : List Char → List (List Char)
  | [] => [[]]
  | c :: rest =>
    let r := splitOnChar sep rest
    if c = sep then [] :: r
    else
      match r with
      | [] => [[c]]
      | p :: ps => (c :: p) :: ps

namespace Pattlog

/-- The shared format cache of pattlog.go: the cached `*time.Time` (`none`
is Go `nil`), the last-update stamp, and the four derived strings `t`, `T`,
`d`, `D`.  pattlog.go never writes `LastUpdateSeconds`, so the model never
updates it either. -/
structure FormatCache where
  tm : Option Tm
  LastUpdateSeconds : Int
  t : String
  T : String
  d : String
  D : String
deriving DecidableEq, Repr

/-- The cache at package load: Go zero values. -/
def initCache : FormatCache :=
  { tm := none, LastUpdateSeconds := 0, t := "", T := "", d := "", D := "" }

/-- One `%X` escape of pattlog.go's FormatLogRecord: the substring written
and the updated cache.  `none` models a runtime panic (dereferencing the
nil cached `tm`, or `levelStrings` indexed out of range).  An unknown
escape writes nothing (the Go `switch` has no default case). -/
def escapeOut (stale : Bool) (rec : LogRecord) (cache : FormatCache) (c : Char) :
    Option (String × FormatCache) :=
  if c = 'T' then
    if stale ∨ cache.T = "" then
      match cache.tm with
      | none => none
      | some tm => some (longTimeOf tm, { cache with T := longTimeOf tm })
    else some (cache.T, cache)
  else if c = 't' then
    if stale ∨ cache.t = "" then
      match cache.tm with
      | none => none
      | some tm => some (shortTimeOf tm, { cache with t := shortTimeOf tm })
    else some (cache.t, cache)
  else if c = 'D' then
    if stale ∨ cache.D = "" then
      match cache.tm with
      | none => none
      | some tm => some (longDateOf tm, { cache with D := longDateOf tm })
    else some (cache.D, cache)
  else if c = 'd' then
    if stale ∨ cache.d = "" then
      match cache.tm with
      | none => none
      | some tm => some (shortDateOf tm, { cache with d := shortDateOf tm })
    else some (cache.d, cache)
  else if c = 'L' then
    match levelString rec.Level with
    | none => none
    | some s => some (s, cache)
  else if c = 'S' then some (rec.Source, cache)
  else if c = 'M' then some (rec.Message, cache)
  else some ("", cache)

/-- The piece loop of pattlog.go's FormatLogRecord
(`for i, piece := range pieces`): pieces after the first that are nonempty
have their head interpreted as an escape and their tail copied; the first
piece is copied verbatim. -/
def formatLoop (stale : Bool) (rec : LogRecord) :
    Nat → List (List Char) → FormatCache → String → Option (String × FormatCache)
  | _, [], cache, out => some (out, cache)
  | 0, piece :: rest, cache, out =>
    if piece ≠ [] then formatLoop stale rec 1 rest cache (out ++ String.mk piece)
    else formatLoop stale rec 1 rest cache out
  | i + 1, [] :: rest, cache, out => formatLoop stale rec (i + 2) rest cache out
  | i + 1, (c :: cs) :: rest, cache, out =>
    match escapeOut stale rec cache c with
    | none => none
    | some (s, cache1) =>
      formatLoop stale rec (i + 2) rest cache1
        (if cs ≠ [] then (out ++ s) ++ String.mk cs else out ++ s)

/-- pattlog.go FormatLogRecord.  `tcf` is the package-level
TimeConversionFunction; the shared global cache is passed and returned
explicitly.  `none` models a runtime panic. -/
def FormatLogRecord (tcf : Int → Tm) (cache : FormatCache) (format : String)
    (rec : Option LogRecord) : Option (String × FormatCache) :=
  match rec with
  | none => some ("<nil>", cache)
  | some r =>
    if format.length = 0 then some ("", cache)
    else
      let secs := createdSecs r.Created
      let stale := secs != cache.LastUpdateSeconds
      let cache1 := if stale then { cache with tm := some (tcf secs) } else cache
      match formatLoop stale r 0 (splitOnChar '%' format.data) cache1 "" with
      | none => none
      | some (out, cache2) => some (out ++ "\n", cache2)

/-- Modelled from the spec for the refinement comparison of claim C6: one
escape of cache-free rendering, every date/time substring recomputed from
the record's second-truncated timestamp. -/
def specEscape (tm : Tm) (rec : LogRecord) (c : Char) : Option String :=
  if c = 'T' then some (longTimeOf tm)
  else if c = 't' then some (shortTimeOf tm)
  else if c = 'D' then some (longDateOf tm)
  else if c = 'd' then some (shortDateOf tm)
  else if c = 'L' then levelString rec.Level
  else if c = 'S' then some rec.Source
  else if c = 'M' then some rec.Message
  else some ""

/-- Modelled from the spec (claim C6): the piece loop of cache-free
rendering. -/
def specLoop (tm : Tm) (rec : LogRecord) :
    Nat → List (List Char) → String → Option String
  | _, [], out => some out
  | 0, piece :: rest, out =>
    if piece ≠ [] then specLoop tm rec 1 rest (out ++ String.mk piece)
    else specLoop tm rec 1 rest out
  | i + 1, [] :: rest, out => specLoop tm rec (i + 2) rest out
  | i + 1, (c :: cs) :: rest, out =>
    match specEscape tm rec c with
    | none => none
    | some s =>
      specLoop tm rec (i + 2) rest
        (if cs ≠ [] then (out ++ s) ++ String.mk cs else out ++ s)

/-- Modelled from the spec (claim C6): "rendering with an empty cache",
recomputing all date/time substrings from the record's second-truncated
timestamp; the comparison definition for the refinement claim, not a
translation of the source. -/
def specRender (tcf : Int → Tm) (format : String) (rec : LogRecord) : Option String :=
  if format.length = 0 then some ""
  else
    let tm := tcf (createdSecs rec.Created)
    match specLoop tm rec 0 (splitOnChar '%' format.data) "" with
    | none => none
    | some out => some (out ++ "\n")

end Pattlog

/-- A concrete instantiation of the configurable time-conversion function,
used only to evaluate the model at specific inputs (the theorems quantify
over the conversion function). -/
def tcf0 : Int → Tm :=
  fun secs => { Year := 1970, Month := 1, Day := 1, Hour := 0, Minute := 0,
                Second := secs, Zone := "UTC" }

namespace Logger

/-- Per-name filter state of the Logger: the registered threshold
(`filterLevels[name]`) together with the registered writer, abstracted to
its `Good()` answer at dispatch time. -/
structure FilterEntry where
  level : Int
  good : Bool
deriving DecidableEq, Repr

/-- Logger.Log (log4go.go): collect every name whose threshold admits
`level`; if any, build exactly one LogRecord and hand it to each collected
writer that reports `Good()`.  The result is the record built (if any) and
the (name, record) writes performed.  Go map iteration order is
unspecified; the model uses list order, and the claims proved below are
order-insensitive. -/
def Log (filters : List (String × FilterEntry)) (level : Int) (source message : String)
    (created : Int) : Option LogRecord × List (String × LogRecord) :=
  let logto := (filters.filter (fun nf => decide (nf.2.level ≤ level))).map Prod.fst
  if 0 < logto.length then
    let r : LogRecord :=
      { Level := level, Created := created, Source := source, Message := message }
    (some r,
      logto.filterMap (fun nm =>
        match filters.lookup nm with
        | some f => if f.good then some (nm, r) else none
        | none => none))
  else (none, [])

/-- Logger.intLogf / intLogc dispatch loop (log4go.go): same admission as
`Log`, but the write loop calls LogWrite on every admitted writer without
consulting `Good()`. -/
def intLogf (filters : List (String × FilterEntry)) (level : Int) (source message : String)
    (created : Int) : Option LogRecord × List (String × LogRecord) :=
  let logto := (filters.filter (fun nf => decide (nf.2.level ≤ level))).map Prod.fst
  if 0 < logto.length then
    let r : LogRecord :=
      { Level := level, Created := created, Source := source, Message := message }
    (some r, logto.filterMap (fun nm => (filters.lookup nm).map (fun _ => (nm, r))))
  else (none, [])

theorem lookup_eq_of_mem {filters : List (String × FilterEntry)} {n : String} {f : FilterEntry}
    (hnd : (filters.map Prod.fst).Nodup) (hmem : (n, f) ∈ filters) :
    filters.lookup n = some f := by
  induction filters with
  | nil => cases hmem
  | cons a l ih =>
    obtain ⟨a1, a2⟩ := a
    simp only [List.map_cons, List.nodup_cons] at hnd
    rcases List.mem_cons.mp hmem with h | h
    · injection h with h1 h2
      subst h1; subst h2
      simp [List.lookup]
    · have hne : (n == a1) = false := by
        simp only [beq_eq_false_iff_ne, ne_eq]
        intro he
        subst he
        exact hnd.1 (List.mem_map_of_mem Prod.fst h)
      simp only [List.lookup, hne]
      exact ih hnd.2 h

theorem countP_filterMap_names (F : String → Option (String × LogRecord))
    (hF : ∀ nm p, F nm = some p → p.1 = nm) :
    ∀ (l : List String), l.Nodup → ∀ nm : String,
      (l.filterMap F).countP (fun w => w.1 == nm)
        = if nm ∈ l ∧ (F nm).isSome then 1 else 0 := by
  intro l
  induction l with
  | nil => intro _ nm; simp
  | cons a l ih =>
    intro hnd nm
    simp only [List.nodup_cons] at hnd
    rcases hFa : F a with _ | p
    · simp only [List.filterMap_cons, hFa]
      rw [ih hnd.2 nm]
      by_cases he : nm = a
      · subst he
        simp [hFa, hnd.1]
      · simp [List.mem_cons, he]
    · simp only [List.filterMap_cons, hFa]
      rw [List.countP_cons, ih hnd.2 nm]
      by_cases he : nm = a
      · subst he
        have hp : p.1 = nm := hF _ _ hFa
        simp [hFa, hnd.1, hp]
      · have hp : (p.1 == nm) = false := by
          have h1 := hF _ _ hFa
          simp [h1, Ne.symm he]
        simp [hp, List.mem_cons, he]

theorem mem_keys_unique {filters : List (String × FilterEntry)} {n : String}
    {f g : FilterEntry}
    (hnd : (filters.map Prod.fst).Nodup) (hf : (n, f) ∈ filters) (hg : (n, g) ∈ filters) :
    f = g := by
  induction filters with
  | nil => cases hf
  | cons a l ih =>
    obtain ⟨a1, a2⟩ := a
    simp only [List.map_cons, List.nodup_cons] at hnd
    rcases List.mem_cons.mp hf with h1 | h1 <;> rcases List.mem_cons.mp hg with h2 | h2
    · injection h1 with h1a h1b
      injection h2 with h2a h2b
      rw [h1b, h2b]
    · injection h1 with h1a h1b
      subst h1a
      exact absurd (List.mem_map_of_mem Prod.fst h2) hnd.1
    · injection h2 with h2a h2b
      subst h2a
      exact absurd (List.mem_map_of_mem Prod.fst h1) hnd.1
    · exact ih hnd.2 h1 h2

theorem mem_admitted_iff {filters : List (String × FilterEntry)} {n : String}
    {f : FilterEntry} {level : Int}
    (hnd : (filters.map Prod.fst).Nodup) (hmem : (n, f) ∈ filters) :
    (n ∈ (filters.filter (fun nf => decide (nf.2.level ≤ level))).map Prod.fst)
      ↔ f.level ≤ level := by
  constructor
  · intro h
    rcases List.mem_map.mp h with ⟨e, he, hfst⟩
    have hel := List.mem_filter.mp he
    obtain ⟨e1, e2⟩ := e
    cases hfst
    have heq : e2 = f := mem_keys_unique hnd hel.1 hmem
    rw [heq] at hel
    simpa using hel.2
  · intro h
    exact List.mem_map_of_mem Prod.fst (List.mem_filter.mpr ⟨hmem, by simpa using h⟩)

theorem admitted_nodup {filters : List (String × FilterEntry)} {level : Int}
    (hnd : (filters.map Prod.fst).Nodup) :
    ((filters.filter (fun nf => decide (nf.2.level ≤ level))).map Prod.fst).Nodup :=
  hnd.sublist ((List.filter_sublist _).map Prod.fst)


/-- C1: for a Logger state with distinct filter names, a sink registered
under name `n` at threshold `f.level` and healthy at dispatch receives
exactly one record from `Log(level, source, message)` iff
`level ≥ threshold`; every delivered record is the single record built for
the call; and if no registered name is admitted no LogRecord is
constructed. -/
theorem log_threshold_admission (filters : List (String × FilterEntry)) (n : String)
    (f : FilterEntry) (level : Int) (source message : String) (created : Int)
    (hnd : (filters.map Prod.fst).Nodup) (hmem : (n, f) ∈ filters)
    (hgood : f.good = true) :
    ((Log filters level source message created).2.countP
        (fun w => w.1 == n) = 1 ↔ f.level ≤ level)
    ∧ (∀ w ∈ (Log filters level source message created).2,
        (Log filters level source message created).1 = some w.2
        ∧ w.2 = { Level := level, Created := created, Source := source,
                  Message := message })
    ∧ ((∀ nf ∈ filters, ¬ nf.2.level ≤ level) →
        Log filters level source message created = (none, [])) := by
  by_cases hpos :
      0 < ((filters.filter (fun nf => decide (nf.2.level ≤ level))).map Prod.fst).length
  · have hlog : Log filters level source message created =
        (some { Level := level, Created := created, Source := source, Message := message },
         ((filters.filter (fun nf => decide (nf.2.level ≤ level))).map Prod.fst).filterMap
           (fun nm =>
             match filters.lookup nm with
             | some f => if f.good then
                 some (nm, { Level := level, Created := created, Source := source,
                             Message := message })
               else none
             | none => none)) := by
      simp only [Log, if_pos hpos]
    have hF : ∀ nm (p : String × LogRecord),
        (match filters.lookup nm with
         | some f => if f.good then
             some (nm, ({ Level := level, Created := created, Source := source,
                          Message := message } : LogRecord))
           else none
         | none => none) = some p → p.1 = nm := by
      intro nm p h
      cases hl : filters.lookup nm with
      | none => rw [hl] at h; cases h
      | some g =>
        rw [hl] at h
        by_cases hg : g.good
        · simp only [if_pos hg, Option.some.injEq] at h
          rw [← h]
        · simp only [if_neg hg] at h
          cases h
    refine ⟨?_, ?_, ?_⟩
    · rw [hlog]
      have hc := countP_filterMap_names _ hF _ (@admitted_nodup filters level hnd) n
      simp only [hc, lookup_eq_of_mem hnd hmem, hgood, if_true]
      by_cases hadm : f.level ≤ level
      · have hm := (@mem_admitted_iff filters n f level hnd hmem).mpr hadm
        simp [hm, hadm]
      · have hm : n ∉ (filters.filter (fun nf => decide (nf.2.level ≤ level))).map Prod.fst :=
          fun h => hadm ((mem_admitted_iff hnd hmem).mp h)
        simp [hm, hadm]
    · intro w hw
      rw [hlog] at hw
      rcases List.mem_filterMap.mp hw with ⟨nm, _, hFnm⟩
      have hw2 : w.2 = { Level := level, Created := created, Source := source,
                         Message := message } := by
        cases hl : filters.lookup nm with
        | none => rw [hl] at hFnm; cases hFnm
        | some g =>
          rw [hl] at hFnm
          by_cases hg : g.good
          · simp only [if_pos hg, Option.some.injEq] at hFnm
            rw [← hFnm]
          · simp only [if_neg hg] at hFnm
            cases hFnm
      rw [hlog]
      exact ⟨by rw [hw2], hw2⟩
    · intro hall
      have hnil : filters.filter (fun nf => decide (nf.2.level ≤ level)) = [] := by
        rw [List.filter_eq_nil_iff]
        intro a ha
        simpa using hall a ha
      simp [Log, hnil]
  · have hnil : Log filters level source message created = (none, []) := by
      simp only [Log]
      rw [if_neg hpos]
    refine ⟨?_, ?_, ?_⟩
    · rw [hnil]
      simp only [List.countP_nil]
      constructor
      · intro h; cases h
      · intro hadm
        exfalso
        apply hpos
        have hm := (@mem_admitted_iff filters n f level hnd hmem).mpr hadm
        exact List.length_pos.mpr (List.ne_nil_of_mem hm)
    · intro w hw
      rw [hnil] at hw
      cases hw
    · intro _
      exact hnil

end Logger
end Log4go

namespace Log4go
namespace Logger

/-- C7 (amended): on the `Logger.Log` dispatch path an admitted sink whose
`Good()` is false at dispatch receives nothing, and every other registered,
admitted, healthy sink still receives exactly one record.  On the
`intLogf`/`intLogc` paths `Good()` is not consulted (see the
counterexample). -/
theorem log_path_skips_unhealthy (filters : List (String × FilterEntry)) (n : String)
    (f : FilterEntry) (level : Int) (source message : String) (created : Int)
    (hnd : (filters.map Prod.fst).Nodup) (hmem : (n, f) ∈ filters)
    (hbad : f.good = false) :
    ((Log filters level source message created).2.countP (fun w => w.1 == n) = 0)
    ∧ (∀ m g, (m, g) ∈ filters → g.good = true → g.level ≤ level →
        (Log filters level source message created).2.countP (fun w => w.1 == m) = 1) := by
  have hF : ∀ nm (p : String × LogRecord),
      (match filters.lookup nm with
       | some f => if f.good then
           some (nm, ({ Level := level, Created := created, Source := source,
                        Message := message } : LogRecord))
         else none
       | none => none) = some p → p.1 = nm := by
    intro nm p h
    cases hl : filters.lookup nm with
    | none => rw [hl] at h; cases h
    | some g =>
      rw [hl] at h
      by_cases hg : g.good
      · simp only [if_pos hg, Option.some.injEq] at h
        rw [← h]
      · simp only [if_neg hg] at h
        cases h
  constructor
  · by_cases hpos :
        0 < ((filters.filter (fun nf => decide (nf.2.level ≤ level))).map Prod.fst).length
    · have hlog : (Log filters level source message created).2 =
          ((filters.filter (fun nf => decide (nf.2.level ≤ level))).map Prod.fst).filterMap
            (fun nm =>
              match filters.lookup nm with
              | some f => if f.good then
                  some (nm, { Level := level, Created := created, Source := source,
                              Message := message })
                else none
              | none => none) := by
        simp only [Log, if_pos hpos]
      rw [hlog]
      rw [countP_filterMap_names _ hF _ (@admitted_nodup filters level hnd) n]
      simp [lookup_eq_of_mem hnd hmem, hbad]
    · have hlog : Log filters level source message created = (none, []) := by
        simp only [Log]
        rw [if_neg hpos]
      rw [hlog]
      simp
  · intro m g hm hg hadm
    have hmm := (@mem_admitted_iff filters m g level hnd hm).mpr hadm
    have hpos :
        0 < ((filters.filter (fun nf => decide (nf.2.level ≤ level))).map Prod.fst).length :=
      List.length_pos.mpr (List.ne_nil_of_mem hmm)
    have hlog : (Log filters level source message created).2 =
        ((filters.filter (fun nf => decide (nf.2.level ≤ level))).map Prod.fst).filterMap
          (fun nm =>
            match filters.lookup nm with
            | some f => if f.good then
                some (nm, { Level := level, Created := created, Source := source,
                            Message := message })
              else none
            | none => none) := by
      simp only [Log, if_pos hpos]
    rw [hlog]
    rw [countP_filterMap_names _ hF _ (@admitted_nodup filters level hnd) m]
    simp [lookup_eq_of_mem hnd hm, hg, hmm]


/-- C7 counterexample: the formatted-message dispatch path (`intLogf`)
invokes LogWrite on an admitted sink even though its `Good()` reports
false, so the claim "every dispatch path skips unhealthy sinks" fails on
the code. -/
theorem intLogf_writes_unhealthy_sink :
    (intLogf [("f", { level := 0, good := false })] 1 "s" "m" 0).2
      = [("f", { Level := 1, Created := 0, Source := "s", Message := "m" })]
    ∧ ({ level := 0, good := false } : FilterEntry).good = false := by
  decide

/-- C1 witness: the admission equivalence evaluated on a concrete two-sink
logger. -/
theorem log_threshold_admission_witness :
    ((([("a", ({ level := 2, good := true } : FilterEntry)),
        ("b", { level := 5, good := true })]).map Prod.fst).Nodup
      ∧ ("a", ({ level := 2, good := true } : FilterEntry)) ∈
          [("a", ({ level := 2, good := true } : FilterEntry)),
           ("b", { level := 5, good := true })]
      ∧ ({ level := 2, good := true } : FilterEntry).good = true)
    ∧ (((Log [("a", { level := 2, good := true }), ("b", { level := 5, good := true })]
          3 "src" "msg" 9).2.countP (fun w => w.1 == "a") = 1)
        ↔ ({ level := 2, good := true } : FilterEntry).level ≤ 3) :=
  ⟨⟨by decide, by decide, by decide⟩,
   (log_threshold_admission
      [("a", { level := 2, good := true }), ("b", { level := 5, good := true })]
      "a" { level := 2, good := true } 3 "src" "msg" 9
      (by decide) (by decide) (by decide)).1⟩

/-- C7 witness: on the `Log` path a concrete unhealthy sink receives
nothing while a healthy admitted one receives exactly one record. -/
theorem log_path_skips_unhealthy_witness :
    ((([("f", ({ level := 0, good := false } : FilterEntry)),
        ("g", { level := 0, good := true })]).map Prod.fst).Nodup
      ∧ ("f", ({ level := 0, good := false } : FilterEntry)) ∈
          [("f", ({ level := 0, good := false } : FilterEntry)),
           ("g", { level := 0, good := true })]
      ∧ ({ level := 0, good := false } : FilterEntry).good = false)
    ∧ ((Log [("f", { level := 0, good := false }), ("g", { level := 0, good := true })]
          1 "s" "m" 0).2.countP (fun w => w.1 == "f") = 0)
    ∧ ((Log [("f", { level := 0, good := false }), ("g", { level := 0, good := true })]
          1 "s" "m" 0).2.countP (fun w => w.1 == "g") = 1) :=
  ⟨⟨by decide, by decide, by decide⟩,
   (log_path_skips_unhealthy
      [("f", { level := 0, good := false }), ("g", { level := 0, good := true })]
      "f" { level := 0, good := false } 1 "s" "m" 0
      (by decide) (by decide) (by decide)).1,
   (log_path_skips_unhealthy
      [("f", { level := 0, good := false }), ("g", { level := 0, good := true })]
      "f" { level := 0, good := false } 1 "s" "m" 0
      (by decide) (by decide) (by decide)).2
      "g" { level := 0, good := true } (by decide) (by decide) (by decide)⟩

end Logger

namespace Filelog

/-- FileLogWriter state (filelog.go).  `fileOpen` models `file != nil`;
the open file handle itself is abstracted away. -/
structure FileLogWriter where
  fileOpen : Bool
  filename : String
  format : String
  maxlines : Int
  maxlines_curlines : Int
  maxsize : Int
  maxsize_cursize : Int
  daily : Bool
  daily_opendate : Int
  rotate : Bool
deriving DecidableEq, Repr

/-- Outcome of the effects one LogWrite/intRotate touches: which paths
exist (`os.Lstat` succeeding), whether `os.Open` succeeds, and today's day
number (`time.LocalTime().Day`). -/
structure Env where
  fs : String → Bool
  openOk : Bool
  today : Int

/-- Backup numbers are rendered `%03d` (fmt.Sprintf(".%03d", num)). -/
def pad3 (n : Nat) : String := natPad 3 n

/-- The backup-number probe loop of intRotate:
`for ; err == nil && num < 999; num++ { fname = name.NNN; _, err = Lstat(fname) }`.
`fuel` counts the remaining admissible iterations (`999 - num`), making the
recursion structural; `exists_` is `err == nil`.  Returns `fname` and
`err == nil` as left by the loop. -/
def searchExtAux (fs : String → Bool) (filename : String) :
    Nat → Nat → String → Bool → String × Bool
  | 0, _, fname, exists_ => (fname, exists_)
  | fuel + 1, num, fname, exists_ =>
    if exists_ then
      let fname1 := filename ++ "." ++ pad3 num
      searchExtAux fs filename fuel (num + 1) fname1 (fs fname1)
    else (fname, exists_)

/-- The whole probe: `num` starts at 1 and the loop guard is `num < 999`,
so at most 998 probes run. -/
def searchExt (fs : String → Bool) (filename : String) : String × Bool :=
  searchExtAux fs filename 998 1 "" true

/-- The archive step of intRotate: when `rotate` is set and the target
exists, probe for the first free `name.NNN` and rename the target to it.
Returns the rename performed, if any.  (XMLLogWriter.intRotate contains
the identical loop.) -/
def archiveAction (fs : String → Bool) (rotate : Bool) (filename : String) :
    Option String :=
  if rotate ∧ fs filename then
    let r := searchExt fs filename
    if r.2 then none else some r.1
  else none

/-- FileLogWriter.intRotate: close the current handle, archive, reopen.
On open failure the function returns early, leaving counters, open-date and
the (now closed but still non-nil) handle field untouched. -/
def intRotate (flw : FileLogWriter) (env : Env) : FileLogWriter × Option String :=
  let renamed := archiveAction env.fs flw.rotate flw.filename
  if env.openOk then
    ({ flw with fileOpen := true, daily_opendate := env.today,
                maxlines_curlines := 0, maxsize_cursize := 0 }, renamed)
  else (flw, renamed)

/-- FileLogWriter.Good: `flw.file != nil`. -/
def Good (flw : FileLogWriter) : Bool := flw.fileOpen

/-- The rotation trigger tested at the top of LogWrite. -/
def triggered (flw : FileLogWriter) (today : Int) : Prop :=
  (0 < flw.maxlines ∧ flw.maxlines ≤ flw.maxlines_curlines)
  ∨ (0 < flw.maxsize ∧ flw.maxsize ≤ flw.maxsize_cursize)
  ∨ (flw.daily ∧ today ≠ flw.daily_opendate)

instance (flw : FileLogWriter) (today : Int) : Decidable (triggered flw today) := by
  unfold triggered
  infer_instance

/-- FileLogWriter.LogWrite.  `writeRes` abstracts
`flw.file.Write([]byte(FormatLogRecord(flw.format, rec)))`: `some n` is a
successful write of the n-byte rendered record, `none` a write error.
Returns the new state, whether intRotate ran during the call, and `some n`
on success / `none` on either error path (no usable handle, or failed
write). -/
def LogWrite (flw : FileLogWriter) (env : Env) (writeRes : Option Int) :
    FileLogWriter × Bool × Option Int :=
  let rot : FileLogWriter × Bool :=
    if Good flw ∧ triggered flw env.today then ((intRotate flw env).1, true)
    else (flw, false)
  if Good rot.1 then
    match writeRes with
    | some n =>
      ({ rot.1 with maxlines_curlines := rot.1.maxlines_curlines + 1,
                    maxsize_cursize := rot.1.maxsize_cursize + n }, rot.2, some n)
    | none => (rot.1, rot.2, none)
  else (rot.1, rot.2, none)

/-- k successive LogWrite calls, each file write completing successfully
(the k-th one writing `bytes k` bytes). -/
def runWrites (flw : FileLogWriter) (env : Env) (bytes : Nat → Int) :
    Nat → FileLogWriter
  | 0 => flw
  | k + 1 => (LogWrite (runWrites flw env bytes k) env (some (bytes k))).1

/-- FileLogWriter.Close: `flw.file.Close(); flw.file = nil`.  On a second
call the receiver of `(*os.File).Close` is nil, which the os package
answers with an error (EINVAL), not a panic, so the model stays total. -/
def Close (flw : FileLogWriter) : FileLogWriter := { flw with fileOpen := false }

end Filelog

namespace Xmllog

/-- XMLLogWriter state (the XML-sink revision of the file writer). -/
structure XMLLogWriter where
  fileOpen : Bool
  filename : String
  maxrecords : Int
  maxrecords_currecords : Int
  maxsize : Int
  maxsize_cursize : Int
  daily : Bool
  daily_opendate : Int
  rotate : Bool
deriving DecidableEq, Repr

/-- XMLLogWriter.Close: write the closing tag only when a file is open,
then close the handle (nil receiver gives an error, not a panic) and nil
it.  The second component is the list of strings written to the file. -/
def Close (x : XMLLogWriter) : XMLLogWriter × List String :=
  ({ x with fileOpen := false }, if x.fileOpen then ["</log>\n"] else [])

end Xmllog

namespace Termlog

/-- ConsoleLogWriter.LogWrite (termlog.go): a fixed
`[01/02/06 15:04:05] [LEVL] message` line on stdout; the source field is
ignored.  `none` models the `levelStrings[rec.Level]` index panic. -/
def LogWrite (tcf : Int → Tm) (rec : LogRecord) : Option String :=
  let tm := tcf (createdSecs rec.Created)
  match levelString rec.Level with
  | none => none
  | some lvl =>
    some ("[" ++ shortDateOf tm ++ " " ++ clockOf tm ++ "] [" ++ lvl ++ "] "
          ++ rec.Message ++ "\n")

/-- ConsoleLogWriter.Close: a no-op. -/
def Close : Unit → Unit := fun u => u

end Termlog

namespace Socklog

/-- A connected socket, reduced to what Close inspects:
`RemoteAddr().Network()`. -/
structure Conn where
  network : String
deriving DecidableEq, Repr

/-- SocketLogWriter state: `sock` is the net.Conn interface value
(`none` = nil). -/
structure SocketLogWriter where
  sock : Option Conn
deriving DecidableEq, Repr

/-- SocketLogWriter.Good: `slw.sock != nil`. -/
def Good (slw : SocketLogWriter) : Bool := slw.sock.isSome

/-- socklog.go SocketLogWriter.LogWrite: marshal the record to JSON and
write that to the socket; no delimiter follows.  `js` stands for the
`json.Marshal(rec)` output (Go standard library); the socket write is
assumed to succeed.  Result: the strings written, and `some n` (bytes
written) or `none` for the error return on a nil socket. -/
def LogWrite (slw : SocketLogWriter) (js : String) : List String × Option Nat :=
  match slw.sock with
  | none => ([], none)
  | some _ => ([js], some js.utf8ByteSize)

/-- socklog.go SocketLogWriter.Close: `sock != nil &&
sock.RemoteAddr().Network() == "tcp"` guards the connection Close, so the
nil case never dereferences; then the field is nilled. -/
def Close (slw : SocketLogWriter) : SocketLogWriter :=
  match slw.sock with
  | none => { sock := none }
  | some c => if c.network == "tcp" then { sock := none } else { sock := none }

end Socklog

namespace Elog

/-- elog_socklog.go: the end-of-message delimiter. -/
def EOM : String := "\n"

/-- elog_socklog.go SocketLogWriter.LogWrite: write the JSON record, then
the EOM delimiter, and return n+m. -/
def LogWrite (slw : Socklog.SocketLogWriter) (js : String) :
    List String × Option Nat :=
  match slw.sock with
  | none => ([], none)
  | some _ => ([js, EOM], some (js.utf8ByteSize + EOM.utf8ByteSize))

end Elog

namespace Filelog

theorem not_triggered_of (s : FileLogWriter) (today : Int)
    (h1 : s.maxlines_curlines < s.maxlines) (h2 : s.maxsize = 0)
    (h3 : s.daily = false) : ¬ triggered s today := by
  intro ht
  rcases ht with ⟨_, hb⟩ | ⟨ha, _⟩ | ⟨ha, _⟩
  · exact absurd hb (not_le.mpr h1)
  · rw [h2] at ha; exact lt_irrefl 0 ha
  · rw [h3] at ha; cases ha


theorem LogWrite_no_trigger (s : FileLogWriter) (env : Env) (n : Int)
    (hopen : s.fileOpen = true) (hnt : ¬ triggered s env.today) :
    LogWrite s env (some n) =
      ({ s with maxlines_curlines := s.maxlines_curlines + 1,
                maxsize_cursize := s.maxsize_cursize + n }, false, some n) := by
  have h1 : ¬ (Good s ∧ triggered s env.today) := fun h => hnt h.2
  simp only [LogWrite, if_neg h1]
  simp [Good, hopen]


theorem LogWrite_trigger_open (s : FileLogWriter) (env : Env) (n : Int)
    (hopen : s.fileOpen = true) (ht : triggered s env.today)
    (hok : env.openOk = true) :
    (LogWrite s env (some n)).2.1 = true
    ∧ (LogWrite s env (some n)).1.maxlines_curlines = 1
    ∧ (LogWrite s env (some n)).1.maxsize_cursize = n
    ∧ (LogWrite s env (some n)).2.2 = some n := by
  have h1 : Good s ∧ triggered s env.today := ⟨by simp [Good, hopen], ht⟩
  simp only [LogWrite, if_pos h1, intRotate, if_pos hok]
  simp [Good]


theorem runWrites_fields (flw : FileLogWriter) (env : Env) (bytes : Nat → Int)
    (N : Nat)
    (hopen : flw.fileOpen = true) (hml : flw.maxlines = (N : Int))
    (hcur : flw.maxlines_curlines = 0) (hms : flw.maxsize = 0)
    (hd : flw.daily = false) :
    ∀ k, k ≤ N →
      (runWrites flw env bytes k).fileOpen = true
      ∧ (runWrites flw env bytes k).maxlines = (N : Int)
      ∧ (runWrites flw env bytes k).maxlines_curlines = (k : Int)
      ∧ (runWrites flw env bytes k).maxsize = 0
      ∧ (runWrites flw env bytes k).daily = false := by
  intro k
  induction k with
  | zero => intro _; exact ⟨hopen, hml, by simpa using hcur, hms, hd⟩
  | succ k ih =>
    intro hk
    have hk' : k ≤ N := Nat.le_of_succ_le hk
    obtain ⟨f1, f2, f3, f4, f5⟩ := ih hk'
    have hlt : ((k : Int)) < (N : Int) := by
      have := Nat.lt_of_succ_le hk
      exact_mod_cast this
    have hnt : ¬ triggered (runWrites flw env bytes k) env.today :=
      not_triggered_of _ _ (by rw [f3, f2]; exact hlt) f4 f5
    have hstep := LogWrite_no_trigger (runWrites flw env bytes k) env (bytes k) f1 hnt
    simp only [runWrites, hstep]
    refine ⟨f1, f2, ?_, f4, f5⟩
    rw [f3]
    push_cast
    ring


/-- C2: for a FileLogWriter with max-lines N > 0, size and daily triggers
disabled, file just (re)opened, and all file writes succeeding: none of the
first N LogWrite calls rotates, the (N+1)th rotates before writing, and
after it returns `maxlines_curlines = 1`. -/
theorem maxlines_rotation_cycle (flw : FileLogWriter) (env : Env)
    (bytes : Nat → Int) (N : Nat)
    (hopen : flw.fileOpen = true) (hml : flw.maxlines = (N : Int)) (hN : 0 < N)
    (hcur : flw.maxlines_curlines = 0) (hms : flw.maxsize = 0)
    (hd : flw.daily = false) (hok : env.openOk = true) :
    (∀ k, k < N →
      (LogWrite (runWrites flw env bytes k) env (some (bytes k))).2.1 = false)
    ∧ (runWrites flw env bytes N).maxlines_curlines = (N : Int)
    ∧ (LogWrite (runWrites flw env bytes N) env (some (bytes N))).2.1 = true
    ∧ (runWrites flw env bytes (N + 1)).maxlines_curlines = 1 := by
  have hf := runWrites_fields flw env bytes N hopen hml hcur hms hd
  refine ⟨?_, ?_, ?_, ?_⟩
  · intro k hk
    obtain ⟨f1, f2, f3, f4, f5⟩ := hf k (Nat.le_of_lt hk)
    have hlt : ((k : Int)) < (N : Int) := by exact_mod_cast hk
    have hnt : ¬ triggered (runWrites flw env bytes k) env.today :=
      not_triggered_of _ _ (by rw [f3, f2]; exact hlt) f4 f5
    rw [LogWrite_no_trigger (runWrites flw env bytes k) env (bytes k) f1 hnt]
  · exact (hf N (le_refl N)).2.2.1
  · obtain ⟨f1, f2, f3, f4, f5⟩ := hf N (le_refl N)
    have ht : triggered (runWrites flw env bytes N) env.today := by
      left
      constructor
      · rw [f2]; exact_mod_cast hN
      · rw [f2, f3]
    exact (LogWrite_trigger_open _ env (bytes N) f1 ht hok).1
  · obtain ⟨f1, f2, f3, f4, f5⟩ := hf N (le_refl N)
    have ht : triggered (runWrites flw env bytes N) env.today := by
      left
      constructor
      · rw [f2]; exact_mod_cast hN
      · rw [f2, f3]
    have := (LogWrite_trigger_open _ env (bytes N) f1 ht hok).2.1
    simpa [runWrites] using this

/-- C9 (amended): a LogWrite that returns an error never increments the
rotation counters: if the call did not rotate they are unchanged, and if it
rotated they are either reset to zero (reopen succeeded) or unchanged
(reopen failed).  A successful write advances them by one line and n bytes
from the post-rotation values. -/
theorem counters_advance_only_on_success (flw : FileLogWriter) (env : Env) :
    ((LogWrite flw env none).2.2 = none)
    ∧ ((LogWrite flw env none).2.1 = false →
        (LogWrite flw env none).1.maxlines_curlines = flw.maxlines_curlines
        ∧ (LogWrite flw env none).1.maxsize_cursize = flw.maxsize_cursize)
    ∧ ((LogWrite flw env none).2.1 = true →
        ((LogWrite flw env none).1.maxlines_curlines = 0
          ∧ (LogWrite flw env none).1.maxsize_cursize = 0)
        ∨ ((LogWrite flw env none).1.maxlines_curlines = flw.maxlines_curlines
          ∧ (LogWrite flw env none).1.maxsize_cursize = flw.maxsize_cursize))
    ∧ (∀ n : Int, (LogWrite flw env (some n)).2.2 = some n →
        ((LogWrite flw env (some n)).1.maxlines_curlines = 1
          ∧ (LogWrite flw env (some n)).1.maxsize_cursize = n
          ∧ (LogWrite flw env (some n)).2.1 = true)
        ∨ ((LogWrite flw env (some n)).1.maxlines_curlines
             = flw.maxlines_curlines + 1
          ∧ (LogWrite flw env (some n)).1.maxsize_cursize
             = flw.maxsize_cursize + n)) := by
  by_cases hcond : Good flw ∧ triggered flw env.today
  · by_cases hok : env.openOk = true
    · simp only [LogWrite, if_pos hcond, intRotate, if_pos hok]
      refine ⟨by simp [Good], ?_, ?_, ?_⟩
      · intro h
        simp [Good] at h
      · intro _
        left
        simp [Good]
      · intro n _
        left
        simp [Good]
    · have hok' : env.openOk = false := by
        cases h : env.openOk
        · rfl
        · exact absurd h hok
      simp only [LogWrite, if_pos hcond, intRotate, hok', if_false]
      refine ⟨?_, ?_, ?_, ?_⟩
      · cases hg : Good flw <;> simp [hg]
      · intro h
        cases hg : Good flw <;> simp [hg] at h ⊢
      · intro _
        right
        cases hg : Good flw <;> simp [hg]
      · intro n hn
        right
        cases hg : Good flw <;> simp [hg] at hn ⊢
  · simp only [LogWrite, if_neg hcond]
    refine ⟨?_, ?_, ?_, ?_⟩
    · cases hg : Good flw <;> simp [hg]
    · intro _
      cases hg : Good flw <;> simp [hg]
    · intro h
      cases hg : Good flw <;> simp [hg] at h
    · intro n hn
      right
      cases hg : Good flw <;> simp [hg] at hn ⊢

/-- C9 counterexample: with max-lines = 1 already reached, a LogWrite whose
file write fails still returns an error, yet both counters have been
changed (reset) by the rotation that ran in the same call, contradicting
"the counters are unchanged by the call". -/
theorem failed_write_after_rotation_resets_counters :
    ((LogWrite
        { fileOpen := true, filename := "t", format := "f", maxlines := 1,
          maxlines_curlines := 1, maxsize := 0, maxsize_cursize := 7,
          daily := false, daily_opendate := 0, rotate := false }
        { fs := fun _ => false, openOk := true, today := 0 } none).2.2 = none)
    ∧ ((LogWrite
        { fileOpen := true, filename := "t", format := "f", maxlines := 1,
          maxlines_curlines := 1, maxsize := 0, maxsize_cursize := 7,
          daily := false, daily_opendate := 0, rotate := false }
        { fs := fun _ => false, openOk := true, today := 0 } none).1.maxlines_curlines
      ≠ ({ fileOpen := true, filename := "t", format := "f", maxlines := 1,
           maxlines_curlines := 1, maxsize := 0, maxsize_cursize := 7,
           daily := false, daily_opendate := 0, rotate := false }
          : FileLogWriter).maxlines_curlines)
    ∧ ((LogWrite
        { fileOpen := true, filename := "t", format := "f", maxlines := 1,
          maxlines_curlines := 1, maxsize := 0, maxsize_cursize := 7,
          daily := false, daily_opendate := 0, rotate := false }
        { fs := fun _ => false, openOk := true, today := 0 } none).1.maxsize_cursize
      ≠ 7) := by
  refine ⟨rfl, ?_, ?_⟩ <;> decide

theorem searchExtAux_stop (fs : String → Bool) (filename : String) :
    ∀ fuel num fname,
      searchExtAux fs filename fuel num fname false = (fname, false) := by
  intro fuel num fname
  cases fuel with
  | zero => rfl
  | succ fuel => simp [searchExtAux]

theorem searchExtAux_finds (fs : String → Bool) (filename : String) :
    ∀ fuel num m fname, num + fuel = 999 → num ≤ m → m ≤ 998 →
      (∀ j, j < m → num ≤ j → fs (filename ++ "." ++ pad3 j) = true) →
      fs (filename ++ "." ++ pad3 m) = false →
      searchExtAux fs filename fuel num fname true
        = (filename ++ "." ++ pad3 m, false) := by
  intro fuel
  induction fuel with
  | zero =>
    intro num m fname hsum hnm hm _ _
    omega
  | succ fuel ih =>
    intro num m fname hsum hnm hm hall hfree
    simp only [searchExtAux, if_pos]
    rcases Nat.eq_or_lt_of_le hnm with heq | hlt
    · subst heq
      rw [hfree]
      exact searchExtAux_stop fs filename fuel (num + 1) _
    · rw [hall num hlt (le_refl num)]
      exact ih (num + 1) m _ (by omega) hlt hm
        (fun j hj hj2 => hall j hj (by omega)) hfree

theorem searchExtAux_exhaust (fs : String → Bool) (filename : String) :
    ∀ fuel num fname, num + fuel = 999 →
      (∀ j, j < 999 → num ≤ j → fs (filename ++ "." ++ pad3 j) = true) →
      (searchExtAux fs filename fuel num fname true).2 = true := by
  intro fuel
  induction fuel with
  | zero => intro num fname _ _; rfl
  | succ fuel ih =>
    intro num fname hsum hall
    simp only [searchExtAux, if_pos]
    rw [hall num (by omega) (le_refl num)]
    exact ih (num + 1) _ (by omega) (fun j hj hj2 => hall j hj (by omega))

/-- C4 (amended): with archiving on and the target existing, the target is
renamed to `<filename>.NNN` for the smallest free NNN probed linearly from
001 — but the probe stops before 999: if 001 through 998 all exist, no
rename happens (even when `.999` is free) and rotation falls through to
overwrite. -/
theorem backup_first_free_name (fs : String → Bool) (filename : String)
    (hex : fs filename = true) :
    (∀ m : Nat, 1 ≤ m → m ≤ 998 → fs (filename ++ "." ++ pad3 m) = false →
      (∀ j, j < m → 1 ≤ j → fs (filename ++ "." ++ pad3 j) = true) →
      archiveAction fs true filename = some (filename ++ "." ++ pad3 m))
    ∧ ((∀ j, j < 999 → 1 ≤ j → fs (filename ++ "." ++ pad3 j) = true) →
      archiveAction fs true filename = none) := by
  constructor
  · intro m h1 h2 hfree hall
    have hse : searchExt fs filename = (filename ++ "." ++ pad3 m, false) :=
      searchExtAux_finds fs filename 998 1 m "" (by omega) h1 h2
        (fun j hj hj2 => hall j hj hj2) hfree
    simp [archiveAction, hex, hse]
  · intro hall
    have hse : (searchExt fs filename).2 = true :=
      searchExtAux_exhaust fs filename 998 1 "" (by omega)
        (fun j hj hj2 => hall j hj hj2)
    simp [archiveAction, hex, hse]

end Filelog

/-- C5: for every sink variant, a second Close() after a completed first
one neither panics (each model stays total on the already-closed state,
mirroring the nil-guards and the error-returning nil-receiver
`(*os.File).Close`) nor corrupts state: the state after two closes equals
the state after one, and the XML sink writes no second closing tag. -/
theorem close_twice_safe :
    ∀ (flw : Filelog.FileLogWriter) (x : Xmllog.XMLLogWriter)
      (s : Socklog.SocketLogWriter),
      Filelog.Close (Filelog.Close flw) = Filelog.Close flw
      ∧ Termlog.Close (Termlog.Close ()) = ()
      ∧ Xmllog.Close (Xmllog.Close x).1 = ({ x with fileOpen := false }, [])
      ∧ Socklog.Close (Socklog.Close s) = Socklog.Close s := by
  intro flw x s
  refine ⟨rfl, rfl, ?_, ?_⟩
  · simp [Xmllog.Close]
  · cases hs : s.sock with
    | none => simp [Socklog.Close, hs]
    | some c => simp [Socklog.Close, hs]

set_option maxRecDepth 4000 in
/-- C4 counterexample: a filesystem in which the target and every backup
001..998 exist while `.999` is free; the claim's probe "capped at 999"
would rename onto `.999`, but the code's loop (`num < 999`) never probes it
and performs no rename. -/
theorem backup_probe_stops_at_998 :
    ((fun s => !(s == "log.999")) "log" = true)
    ∧ (∀ j, j < 999 → 1 ≤ j →
        (fun s => !(s == "log.999")) ("log" ++ "." ++ Filelog.pad3 j) = true)
    ∧ ((fun s => !(s == "log.999")) ("log" ++ "." ++ Filelog.pad3 999) = false)
    ∧ Filelog.archiveAction (fun s => !(s == "log.999")) true "log" = none := by
  refine ⟨by decide, by decide, by decide, by decide⟩

/-- C4 witness: with only the target existing, the first open archives it
to `.001`. -/
theorem backup_first_free_name_witness :
    ((fun s => s == "log") "log" = true
      ∧ (fun s => s == "log") ("log" ++ "." ++ Filelog.pad3 1) = false)
    ∧ Filelog.archiveAction (fun s => s == "log") true "log"
        = some ("log" ++ "." ++ Filelog.pad3 1) :=
  ⟨⟨by decide, by decide⟩,
   (Filelog.backup_first_free_name (fun s => s == "log") "log" (by decide)).1
     1 (by decide) (by decide) (by decide) (by decide)⟩

/-- C2 witness: the rotation cycle evaluated at N = 2. -/
theorem maxlines_rotation_cycle_witness :
    (({ fileOpen := true, filename := "t.log", format := "[%D %T] [%L] (%S) %M",
        maxlines := 2, maxlines_curlines := 0, maxsize := 0, maxsize_cursize := 0,
        daily := false, daily_opendate := 0, rotate := false }
        : Filelog.FileLogWriter).fileOpen = true ∧ (0 : Nat) < 2)
    ∧ (Filelog.LogWrite
        (Filelog.runWrites
          { fileOpen := true, filename := "t.log", format := "[%D %T] [%L] (%S) %M",
            maxlines := 2, maxlines_curlines := 0, maxsize := 0, maxsize_cursize := 0,
            daily := false, daily_opendate := 0, rotate := false }
          { fs := fun _ => false, openOk := true, today := 0 } (fun _ => 50) 2)
        { fs := fun _ => false, openOk := true, today := 0 } (some 50)).2.1 = true
    ∧ (Filelog.runWrites
        { fileOpen := true, filename := "t.log", format := "[%D %T] [%L] (%S) %M",
          maxlines := 2, maxlines_curlines := 0, maxsize := 0, maxsize_cursize := 0,
          daily := false, daily_opendate := 0, rotate := false }
        { fs := fun _ => false, openOk := true, today := 0 } (fun _ => 50)
        3).maxlines_curlines = 1 :=
  ⟨⟨rfl, by decide⟩,
   (Filelog.maxlines_rotation_cycle
      { fileOpen := true, filename := "t.log", format := "[%D %T] [%L] (%S) %M",
        maxlines := 2, maxlines_curlines := 0, maxsize := 0, maxsize_cursize := 0,
        daily := false, daily_opendate := 0, rotate := false }
      { fs := fun _ => false, openOk := true, today := 0 } (fun _ => 50) 2
      rfl rfl (by decide) rfl rfl rfl rfl).2.2.1,
   (Filelog.maxlines_rotation_cycle
      { fileOpen := true, filename := "t.log", format := "[%D %T] [%L] (%S) %M",
        maxlines := 2, maxlines_curlines := 0, maxsize := 0, maxsize_cursize := 0,
        daily := false, daily_opendate := 0, rotate := false }
      { fs := fun _ => false, openOk := true, today := 0 } (fun _ => 50) 2
      rfl rfl (by decide) rfl rfl rfl rfl).2.2.2⟩

/-- C9 witness: a failed write with no trigger leaves both counters
unchanged. -/
theorem counters_advance_only_on_success_witness :
    ((Filelog.LogWrite
        { fileOpen := true, filename := "t", format := "f", maxlines := 0,
          maxlines_curlines := 3, maxsize := 0, maxsize_cursize := 9,
          daily := false, daily_opendate := 0, rotate := false }
        { fs := fun _ => false, openOk := true, today := 0 } none).2.1 = false)
    ∧ ((Filelog.LogWrite
        { fileOpen := true, filename := "t", format := "f", maxlines := 0,
          maxlines_curlines := 3, maxsize := 0, maxsize_cursize := 9,
          daily := false, daily_opendate := 0, rotate := false }
        { fs := fun _ => false, openOk := true, today := 0 } none).1.maxlines_curlines
       = 3
      ∧ (Filelog.LogWrite
        { fileOpen := true, filename := "t", format := "f", maxlines := 0,
          maxlines_curlines := 3, maxsize := 0, maxsize_cursize := 9,
          daily := false, daily_opendate := 0, rotate := false }
        { fs := fun _ => false, openOk := true, today := 0 } none).1.maxsize_cursize
       = 9) :=
  ⟨by decide,
   (Filelog.counters_advance_only_on_success
      { fileOpen := true, filename := "t", format := "f", maxlines := 0,
        maxlines_curlines := 3, maxsize := 0, maxsize_cursize := 9,
        daily := false, daily_opendate := 0, rotate := false }
      { fs := fun _ => false, openOk := true, today := 0 }).2.1 (by decide)⟩



namespace Pattlog

theorem escapeOut_stale (rec : LogRecord) (cache : FormatCache) (tmv : Tm) (c : Char)
    (h : cache.tm = some tmv) :
    (escapeOut true rec cache c).map Prod.fst = specEscape tmv rec c
    ∧ ∀ s c1, escapeOut true rec cache c = some (s, c1) → c1.tm = some tmv := by
  by_cases h1 : c = 'T'
  · subst h1; simp [escapeOut, specEscape, h]
  by_cases h2 : c = 't'
  · subst h2; simp [escapeOut, specEscape, h]
  by_cases h3 : c = 'D'
  · subst h3; simp [escapeOut, specEscape, h]
  by_cases h4 : c = 'd'
  · subst h4; simp [escapeOut, specEscape, h]
  by_cases h5 : c = 'L'
  · subst h5
    cases hls : levelString rec.Level <;> simp [escapeOut, specEscape, h, hls]
  by_cases h6 : c = 'S'
  · subst h6; simp [escapeOut, specEscape, h]
  by_cases h7 : c = 'M'
  · subst h7; simp [escapeOut, specEscape, h]
  simp [escapeOut, specEscape, h, h1, h2, h3, h4, h5, h6, h7]

theorem formatLoop_stale (rec : LogRecord) (tmv : Tm) :
    ∀ (ps : List (List Char)) (i : Nat) (cache : FormatCache) (out : String),
      cache.tm = some tmv →
      (formatLoop true rec i ps cache out).map Prod.fst = specLoop tmv rec i ps out := by
  intro ps
  induction ps with
  | nil => intro i cache out h; cases i <;> rfl
  | cons p rest ih =>
    intro i cache out h
    cases i with
    | zero =>
      by_cases hp : p ≠ []
      · simp only [formatLoop, specLoop, if_pos hp]
        exact ih 1 cache _ h
      · simp only [formatLoop, specLoop, if_neg hp]
        exact ih 1 cache _ h
    | succ i =>
      cases p with
      | nil =>
        simp only [formatLoop, specLoop]
        exact ih (i + 2) cache out h
      | cons c cs =>
        have hesc := escapeOut_stale rec cache tmv c h
        cases hE : escapeOut true rec cache c with
        | none =>
          have : specEscape tmv rec c = none := by
            rw [← hesc.1, hE]; rfl
          simp only [formatLoop, specLoop, hE, this]
          rfl
        | some sc =>
          obtain ⟨s, c1⟩ := sc
          have hspec : specEscape tmv rec c = some s := by
            rw [← hesc.1, hE]; rfl
          have hc1 : c1.tm = some tmv := hesc.2 s c1 hE
          simp only [formatLoop, specLoop, hE, hspec]
          exact ih (i + 2) c1 _ hc1

theorem FormatLogRecord_stale (tcf : Int → Tm) (cache : FormatCache) (format : String)
    (rec : LogRecord)
    (h : createdSecs rec.Created ≠ cache.LastUpdateSeconds) :
    (FormatLogRecord tcf cache format (some rec)).map Prod.fst
      = specRender tcf format rec := by
  unfold FormatLogRecord specRender
  by_cases hf : format.length = 0
  · simp [hf]
  · simp only [if_neg hf]
    have hb : (createdSecs rec.Created != cache.LastUpdateSeconds) = true := by
      simpa using h
    simp only [hb, if_true]
    have hkey := formatLoop_stale rec (tcf (createdSecs rec.Created))
      (splitOnChar '%' format.data) 0
      { cache with tm := some (tcf (createdSecs rec.Created)) } "" rfl
    cases hR : formatLoop true rec 0 (splitOnChar '%' format.data)
        { cache with tm := some (tcf (createdSecs rec.Created)) } "" with
    | none =>
      rw [hR] at hkey
      rw [← hkey]
      rfl
    | some oc =>
      obtain ⟨out, c2⟩ := oc
      rw [hR] at hkey
      rw [← hkey]
      rfl

/-- C3 (amended): with the record's truncated second differing from the
cache stamp (so that the call recomputes its time strings), every escape of
the table substitutes as specified, unknown escapes are dropped, and every
NONEMPTY template gets exactly one trailing newline; the empty template,
however, renders to the empty string with no newline appended (pattlog.go
returns "" before reaching the append). -/
theorem format_substitution_amended (tcf : Int → Tm) (cache : FormatCache)
    (rec : LogRecord)
    (hstale : createdSecs rec.Created ≠ cache.LastUpdateSeconds)
    (hlvl : rec.Level = 7) (hmsg : rec.Message = "x") :
    ((FormatLogRecord tcf cache "%L %M" (some rec)).map Prod.fst = some "CRIT x\n")
    ∧ ((FormatLogRecord tcf cache "a%Zb" (some rec)).map Prod.fst = some "ab\n")
    ∧ ((FormatLogRecord tcf cache "%T" (some rec)).map Prod.fst
        = some (longTimeOf (tcf (createdSecs rec.Created)) ++ "\n"))
    ∧ ((FormatLogRecord tcf cache "%t" (some rec)).map Prod.fst
        = some (shortTimeOf (tcf (createdSecs rec.Created)) ++ "\n"))
    ∧ ((FormatLogRecord tcf cache "%D" (some rec)).map Prod.fst
        = some (longDateOf (tcf (createdSecs rec.Created)) ++ "\n"))
    ∧ ((FormatLogRecord tcf cache "%d" (some rec)).map Prod.fst
        = some (shortDateOf (tcf (createdSecs rec.Created)) ++ "\n"))
    ∧ ((FormatLogRecord tcf cache "%S" (some rec)).map Prod.fst
        = some (rec.Source ++ "\n"))
    ∧ ((FormatLogRecord tcf cache "%M" (some rec)).map Prod.fst
        = some (rec.Message ++ "\n"))
    ∧ (∀ format s c2, format.length ≠ 0 →
        FormatLogRecord tcf cache format (some rec) = some (s, c2) →
        ∃ q, s = q ++ "\n")
    ∧ (FormatLogRecord tcf cache "" (some rec) = some ("", cache)) := by
  refine ⟨?_, ?_, ?_, ?_, ?_, ?_, ?_, ?_, ?_, ?_⟩
  · rw [FormatLogRecord_stale tcf cache _ rec hstale]
    have h0 : ¬ ("%L %M".length = 0) := by decide
    simp [specRender, specLoop, specEscape, splitOnChar, hlvl, hmsg, levelString,
      levelStrings, h0]
  · rw [FormatLogRecord_stale tcf cache _ rec hstale]
    have h0 : ¬ ("a%Zb".length = 0) := by decide
    simp [specRender, specLoop, specEscape, splitOnChar, h0]
  · rw [FormatLogRecord_stale tcf cache _ rec hstale]
    have h0 : ¬ ("%T".length = 0) := by decide
    simp [specRender, specLoop, specEscape, splitOnChar, h0]
  · rw [FormatLogRecord_stale tcf cache _ rec hstale]
    have h0 : ¬ ("%t".length = 0) := by decide
    simp [specRender, specLoop, specEscape, splitOnChar, h0]
  · rw [FormatLogRecord_stale tcf cache _ rec hstale]
    have h0 : ¬ ("%D".length = 0) := by decide
    simp [specRender, specLoop, specEscape, splitOnChar, h0]
  · rw [FormatLogRecord_stale tcf cache _ rec hstale]
    have h0 : ¬ ("%d".length = 0) := by decide
    simp [specRender, specLoop, specEscape, splitOnChar, h0]
  · rw [FormatLogRecord_stale tcf cache _ rec hstale]
    have h0 : ¬ ("%S".length = 0) := by decide
    simp [specRender, specLoop, specEscape, splitOnChar, h0]
  · rw [FormatLogRecord_stale tcf cache _ rec hstale]
    have h0 : ¬ ("%M".length = 0) := by decide
    simp [specRender, specLoop, specEscape, splitOnChar, h0]
  · intro format s c2 hf hr
    simp only [FormatLogRecord] at hr
    rw [if_neg hf] at hr
    split at hr
    · cases hr
    · rename_i out cc heq
      simp only [Option.some.injEq, Prod.mk.injEq] at hr
      exact ⟨out, hr.1.symm⟩
  · simp [FormatLogRecord]

theorem levelString_isSome (lvl : Int) :
    (levelString lvl).isSome ↔ 0 ≤ lvl ∧ lvl < 8 := by
  unfold levelString
  by_cases h : 0 ≤ lvl
  · rw [if_pos h]
    have hlen : levelStrings.length = 8 := by decide
    constructor
    · intro hs
      refine ⟨h, ?_⟩
      by_contra hlt
      push_neg at hlt
      have h8 : levelStrings.length ≤ lvl.toNat := by
        rw [hlen]; omega
      rw [List.get?_eq_none.mpr h8] at hs
      cases hs
    · rintro ⟨_, hlt⟩
      have hn : lvl.toNat < levelStrings.length := by rw [hlen]; omega
      rw [List.get?_eq_get hn]
      rfl
  · rw [if_neg h]
    simp only [Option.isSome_none, Bool.false_eq_true, false_iff]
    rintro ⟨h0, _⟩
    exact h h0

/-- C6 (amended): whenever the record's second-truncated timestamp differs
from the cache's last-update stamp — which pattlog.go never writes, so it
stays 0 — rendering is independent of the cache contents and equals the
recompute-everything rendering of the spec.  When the timestamp seconds
equal the stamp, stale cached strings are served (see the
counterexample). -/
theorem render_stale_matches_recompute (tcf : Int → Tm)
    (cache : FormatCache) (format : String) (rec : LogRecord)
    (h : createdSecs rec.Created ≠ cache.LastUpdateSeconds) :
    (FormatLogRecord tcf cache format (some rec)).map Prod.fst
      = specRender tcf format rec :=
  FormatLogRecord_stale tcf cache format rec h

end Pattlog

/-- C10: both the console sink's LogWrite and FormatLogRecord on a
"%L" template are defined (return a string rather than panicking on the
unchecked levelStrings index) precisely when 0 ≤ Level ≤ 7. -/
theorem level_index_range (tcf : Int → Tm) (rec : LogRecord)
    (cache : Pattlog.FormatCache) :
    ((Termlog.LogWrite tcf rec).isSome ↔ (0 ≤ rec.Level ∧ rec.Level < 8))
    ∧ ((Pattlog.FormatLogRecord tcf cache "%L" (some rec)).isSome
        ↔ (0 ≤ rec.Level ∧ rec.Level < 8)) := by
  constructor
  · rw [← Pattlog.levelString_isSome]
    unfold Termlog.LogWrite
    cases hls : levelString rec.Level <;> simp [hls]
  · rw [← Pattlog.levelString_isSome]
    have h0 : ¬ ("%L".length = 0) := by decide
    simp only [Pattlog.FormatLogRecord, if_neg h0]
    have hsp : splitOnChar '%' "%L".data = [[], ['L']] := by decide
    rw [hsp]
    cases hst : (createdSecs rec.Created != cache.LastUpdateSeconds) <;>
      cases hls : levelString rec.Level <;>
        simp [Pattlog.formatLoop, Pattlog.escapeOut, hls]

/-- C6 counterexample: rendering a record with Created = 0 (truncated
seconds 0, matching the never-updated cache stamp) under the reachable
cache produced by first rendering a Created = 5s record yields the cached
"00:00:05 UTC" time, while the empty-cache recompute rendering yields
"00:00:00 UTC"; under the initial cache the same call even panics (nil tm).
Cache staleness therefore does change the output. -/
theorem stale_cache_changes_output :
    ((Pattlog.FormatLogRecord tcf0 Pattlog.initCache "%T"
        (some { Level := 7, Created := 5000000000, Source := "s", Message := "x" })).bind
      (fun rc => (Pattlog.FormatLogRecord tcf0 rc.2 "%T"
        (some { Level := 7, Created := 0, Source := "s", Message := "x" })).map Prod.fst)
      = some "00:00:05 UTC\n")
    ∧ Pattlog.specRender tcf0 "%T"
        { Level := 7, Created := 0, Source := "s", Message := "x" }
      = some "00:00:00 UTC\n"
    ∧ (Pattlog.FormatLogRecord tcf0 Pattlog.initCache "%T"
        (some { Level := 7, Created := 0, Source := "s", Message := "x" })).map Prod.fst
      = none := by
  refine ⟨by decide, by decide, by decide⟩

/-- C6 witness: the stale-path equality evaluated on a concrete record and
the initial cache. -/
theorem render_stale_matches_recompute_witness :
    (createdSecs (5000000000 : Int) ≠ Pattlog.initCache.LastUpdateSeconds)
    ∧ ((Pattlog.FormatLogRecord tcf0 Pattlog.initCache "%T"
          (some { Level := 7, Created := 5000000000, Source := "s",
                  Message := "x" })).map Prod.fst
        = Pattlog.specRender tcf0 "%T"
            { Level := 7, Created := 5000000000, Source := "s", Message := "x" }) :=
  ⟨by decide,
   Pattlog.render_stale_matches_recompute tcf0 Pattlog.initCache "%T"
     { Level := 7, Created := 5000000000, Source := "s", Message := "x" } (by decide)⟩

/-- C3 counterexample: pattlog.go's FormatLogRecord returns "" for the
empty template — no trailing newline is appended, contradicting "appends a
trailing newline to every rendered string (including the empty
template)". -/
theorem empty_template_no_newline :
    Pattlog.FormatLogRecord tcf0 Pattlog.initCache ""
        (some { Level := 7, Created := 5000000000, Source := "s", Message := "x" })
      = some ("", Pattlog.initCache)
    ∧ ("" : String) ≠ "\n" := by
  refine ⟨by decide, by decide⟩

/-- C3 witness: the substitution table evaluated on the claim's concrete
example (level CRITICAL, message "x"). -/
theorem format_substitution_witness :
    ((createdSecs (5000000000 : Int) ≠ Pattlog.initCache.LastUpdateSeconds)
      ∧ ({ Level := 7, Created := 5000000000, Source := "s", Message := "x"
           } : LogRecord).Level = 7
      ∧ ({ Level := 7, Created := 5000000000, Source := "s", Message := "x"
           } : LogRecord).Message = "x")
    ∧ ((Pattlog.FormatLogRecord tcf0 Pattlog.initCache "%L %M"
        (some { Level := 7, Created := 5000000000, Source := "s",
                Message := "x" })).map Prod.fst = some "CRIT x\n") :=
  ⟨⟨by decide, by decide, by decide⟩,
   (Pattlog.format_substitution_amended tcf0 Pattlog.initCache
      { Level := 7, Created := 5000000000, Source := "s", Message := "x" }
      (by decide) (by decide) (by decide)).1⟩

/-- C8 counterexample: socklog.go's SocketLogWriter.LogWrite writes only
the JSON serialization — the written payload does not end with the
end-of-message delimiter (which the elog revision defines as "\n") — and
returns just the record's byte count. -/
theorem socklog_write_lacks_delimiter :
    Socklog.LogWrite { sock := some { network := "tcp" } } "x" = (["x"], some 1)
    ∧ (String.join (Socklog.LogWrite { sock := some { network := "tcp" } } "x").1).data.getLast?
        ≠ some '\n'
    ∧ Elog.EOM.data.getLast? = some '\n' := by
  refine ⟨by decide, by decide, by decide⟩

/-- C8 (amended): the elog variant of SocketLogWriter.LogWrite writes the
JSON record followed by the EOM delimiter and returns n+m; the log4go
variant (socklog.go) writes the JSON record only and returns its byte
count. -/
theorem socket_write_payloads (slw : Socklog.SocketLogWriter) (js : String)
    (h : slw.sock.isSome) :
    Elog.LogWrite slw js
        = ([js, Elog.EOM], some (js.utf8ByteSize + Elog.EOM.utf8ByteSize))
    ∧ String.join (Elog.LogWrite slw js).1 = js ++ Elog.EOM
    ∧ Socklog.LogWrite slw js = ([js], some js.utf8ByteSize)
    ∧ String.join (Socklog.LogWrite slw js).1 = js := by
  cases hs : slw.sock with
  | none => rw [hs] at h; cases h
  | some c =>
    refine ⟨?_, ?_, ?_, ?_⟩ <;>
      simp [Elog.LogWrite, Socklog.LogWrite, hs, String.join]

/-- C8 witness: both write shapes evaluated on a concrete connection. -/
theorem socket_write_payloads_witness :
    (({ sock := some { network := "udp" } } : Socklog.SocketLogWriter).sock.isSome
       = true)
    ∧ Elog.LogWrite { sock := some { network := "udp" } } "x"
        = (["x", Elog.EOM], some ("x".utf8ByteSize + Elog.EOM.utf8ByteSize)) :=
  ⟨by decide,
   (socket_write_payloads { sock := some { network := "udp" } } "x" (by decide)).1⟩


end Log4go
